import Mathlib

/-!
Verification of the MarkPix annotation-editing engine.

A shallow embedding of the parts of the repository that the checked
properties are about:

* `src/src/types/index.ts` — the annotation data model (tagged union),
  crop mask/area, history entries, view state;
* `src/src/store/editorStore.ts` — the editor store: `pushHistory`,
  `undo`, `redo`, `addAnnotation`, and the `createAnnotation` factory;
* `src/src/components/Editor.tsx` — `handleCropConfirm`, the image
  branch of `handlePaste`;
* `src/src/components/canvas/AnnotationCanvas.tsx` — the draft-commit
  branch of `handleMouseUp`, `handleTransformEnd`, the canvas-zoom
  branch of `handleWheel`, `getPointerPosition`;
* `src/src/components/canvas/RenderAnnotation.tsx` —
  `applyKuwaharaFilter` and `calculateTangentLines`.

Numeric annotation fields are modelled by real numbers, JS arrays by
lists, `null`/optional fields by `Option`, and `JSON.parse(JSON.stringify x)`
deep copies by the value itself (value semantics).  Pixel buffers for the
mosaic filter are modelled over the rationals so that means and
variances are exact.
-/

namespace MarkPix

/-- Tool types, from `src/src/types/index.ts` (`ToolType`).  The store
factory (`createAnnotation`, case `"magnifier"`) and the renderer also
handle a magnifier tool, so it is included as a tool kind here. -/
inductive ToolType where
  | select | pan | rectangle | ellipse | arrow | line | text
  | brush | marker | blur | crop | image | magnifier
deriving DecidableEq, Repr

/-- `LineStyle` from the types file. -/
inductive LineStyle where
  | solid | dashed
deriving DecidableEq, Repr

/-- `MarkerStyle` from the types file. -/
inductive MarkerStyle where
  | filled | outlined
deriving DecidableEq, Repr

/-- `ArrowStyle` from the types file. -/
inductive ArrowStyle where
  | normal | filled
deriving DecidableEq, Repr

/-- `TextStyle` from the types file. -/
inductive TextStyle where
  | normal | bubble
deriving DecidableEq, Repr

/-- `BubbleTailPosition` from the types file. -/
inductive BubbleTailPosition where
  | left | right
deriving DecidableEq, Repr

/-- `MarkerType` from the types file. -/
inductive MarkerType where
  | number | letter
deriving DecidableEq, Repr

/-- A marker `value` is `number | string` in the source. -/
inductive MarkerValue where
  | num (n : ℝ)
  | str (s : String)

/-- The fields of `BaseAnnotation` other than the type tag
(`id`, position, optional rotation/scale/visibility/lock). -/
structure BaseFields where
  id : String
  x : ℝ
  y : ℝ
  rotation : Option ℝ := none
  scaleX : Option ℝ := none
  scaleY : Option ℝ := none
  visible : Option Bool := none
  locked : Option Bool := none

/-- The per-variant payload of the `Annotation` tagged union
(`RectAnnotation`, `EllipseAnnotation`, …).  One constructor per type
tag; each constructor carries exactly the variant-specific fields of the
corresponding interface, with TS-optional fields as `Option`. -/
inductive AnnotData where
  | rect (width height : ℝ) (stroke : String) (strokeWidth : ℝ)
      (fill : String) (fillOpacity : ℝ) (cornerRadius : Option ℝ)
  | ellipse (radiusX radiusY : ℝ) (stroke : String) (strokeWidth : ℝ)
      (fill : String) (fillOpacity : ℝ)
  | arrow (points : List ℝ) (stroke : String) (strokeWidth : ℝ)
      (lineStyle : LineStyle) (arrowStyle : ArrowStyle)
      (pointerLength pointerWidth : Option ℝ)
  | line (points : List ℝ) (stroke : String) (strokeWidth : ℝ)
      (lineStyle : LineStyle)
  | text (text : String) (fontSize : ℝ) (fontFamily : String)
      (fill : String) (textStyle : TextStyle)
      (bubbleStroke bubbleFill : Option String)
      (bubbleTailPosition : Option BubbleTailPosition)
      (backgroundColor : Option String) (padding : Option ℝ)
      (width : Option ℝ)
  | brush (points : List ℝ) (stroke : String) (strokeWidth : ℝ)
      (tension : Option ℝ) (lineCap lineJoin : Option String)
  | marker (value : MarkerValue) (markerStyle : MarkerStyle)
      (markerType : MarkerType) (size : ℝ) (fill textColor : String)
      (stroke : Option String) (strokeWidth : Option ℝ)
  | blur (width height blurRadius cornerRadius : ℝ)
  | image (width height : ℝ) (src : String)
  | magnifier (sourceX sourceY sourceRadius targetRadius scale : ℝ)

/-- An annotation: base fields plus variant payload. -/
structure Annot where
  base : BaseFields
  data : AnnotData

/-- The type tag of an annotation, as a tool type. -/
def Annot.tag (a : Annot) : ToolType :=
  match a.data with
  | .rect .. => .rectangle
  | .ellipse .. => .ellipse
  | .arrow .. => .arrow
  | .line .. => .line
  | .text .. => .text
  | .brush .. => .brush
  | .marker .. => .marker
  | .blur .. => .blur
  | .image .. => .image
  | .magnifier .. => .magnifier

/-- `CropMask` from the types file. -/
structure CropMask where
  x : ℝ
  y : ℝ
  width : ℝ
  height : ℝ

/-- `CropArea` from the types file. -/
structure CropArea where
  x : ℝ
  y : ℝ
  width : ℝ
  height : ℝ

/-- `HistoryState` from the types file: a deep snapshot of the
annotation list and crop mask, plus a timestamp. -/
structure HistoryState where
  annotations : List Annot
  cropMask : Option CropMask
  timestamp : ℤ

/-- `MAX_HISTORY_LENGTH` from `editorStore.ts`. -/
def MAX_HISTORY_LENGTH : ℕ := 50

/-- The slice of the Zustand editor store that the history, annotation
and crop operations read and write.  `historyIndex` is an integer
because the store uses `-1` for the pre-first-entry state. -/
structure EditorState where
  annotations : List Annot
  selectedIds : List String
  history : List HistoryState
  historyIndex : ℤ
  cropMask : Option CropMask
  cropArea : Option CropArea
  currentTool : ToolType

/-- `pushHistory` from `editorStore.ts`: truncate the redo branch
(`history.slice(0, historyIndex + 1)`), append a deep snapshot of the
current annotations and crop mask, evict the oldest entry when the
length exceeds `MAX_HISTORY_LENGTH` (`newHistory.shift()`), and point
the index at the last entry.  `Date.now()` is passed in as `now`. -/
def pushHistory (now : ℤ) (s : EditorState) : EditorState :=
  let newHistory :=
    s.history.take (s.historyIndex + 1).toNat ++
      [{ annotations := s.annotations, cropMask := s.cropMask, timestamp := now }]
  let newHistory :=
    if newHistory.length > MAX_HISTORY_LENGTH then newHistory.tail else newHistory
  { s with history := newHistory, historyIndex := (newHistory.length : ℤ) - 1 }

/-- A default entry used to model JS array indexing; the verified
operations only index in bounds (see the well-formedness hypotheses). -/
def emptyEntry : HistoryState := { annotations := [], cropMask := none, timestamp := 0 }

/-- `undo` from `editorStore.ts`: if `historyIndex > 0` restore the
entry at `historyIndex - 1` and decrement; if `historyIndex == 0`
restore the empty initial state and set the index to `-1`; otherwise do
nothing.  Restoring always clears the selection. -/
def undo (s : EditorState) : EditorState :=
  if s.historyIndex > 0 then
    let prevState := s.history.getD (s.historyIndex - 1).toNat emptyEntry
    { s with annotations := prevState.annotations, cropMask := prevState.cropMask,
             historyIndex := s.historyIndex - 1, selectedIds := [] }
  else if s.historyIndex = 0 then
    { s with annotations := [], cropMask := none,
             historyIndex := -1, selectedIds := [] }
  else s

/-- `redo` from `editorStore.ts`: if `historyIndex < history.length - 1`
restore the entry at `historyIndex + 1` and increment; else no-op. -/
def redo (s : EditorState) : EditorState :=
  if s.historyIndex < (s.history.length : ℤ) - 1 then
    let nextState := s.history.getD (s.historyIndex + 1).toNat emptyEntry
    { s with annotations := nextState.annotations, cropMask := nextState.cropMask,
             historyIndex := s.historyIndex + 1, selectedIds := [] }
  else s

/-- `addAnnotation` from `editorStore.ts`: append the annotation, then
push a history entry. -/
def addAnnot (now : ℤ) (a : Annot) (s : EditorState) : EditorState :=
  pushHistory now { s with annotations := s.annotations ++ [a] }

/-- The history stack is well formed: `-1 ≤ index < length` and the
stack respects the 50-entry bound.  This is the invariant the store
maintains (spec §3, HistoryStack). -/
def historyWF (s : EditorState) : Prop :=
  -1 ≤ s.historyIndex ∧ s.historyIndex < (s.history.length : ℤ) ∧
    s.history.length ≤ MAX_HISTORY_LENGTH

/-- The current state agrees with the entry the index points at (or is
the empty initial state when the index is `-1`).  Every store mutation
that edits and then pushes re-establishes this. -/
def inSync (s : EditorState) : Prop :=
  if 0 ≤ s.historyIndex then
    (s.history.getD s.historyIndex.toNat emptyEntry).annotations = s.annotations ∧
      (s.history.getD s.historyIndex.toNat emptyEntry).cropMask = s.cropMask
  else s.annotations = [] ∧ s.cropMask = none

/-- The snapshot `pushHistory` appends. -/
def snap (s : EditorState) (now : ℤ) : HistoryState :=
  { annotations := s.annotations, cropMask := s.cropMask, timestamp := now }

lemma getD_append_left {α : Type _} (l₁ l₂ : List α) (i : ℕ) (d : α)
    (h : i < l₁.length) : (l₁ ++ l₂).getD i d = l₁.getD i d := by
  simp [List.getD_eq_getElem?_getD, List.getElem?_append, h]

lemma getD_concat_self {α : Type _} (l : List α) (e d : α) :
    (l ++ [e]).getD l.length d = e := by
  simp [List.getD_eq_getElem?_getD, List.getElem?_concat_length]

lemma getD_take {α : Type _} (l : List α) (n i : ℕ) (d : α) (h : i < n) :
    (l.take n).getD i d = l.getD i d := by
  simp [List.getD_eq_getElem?_getD, List.getElem?_take, h]

lemma getD_concat_of_length {α : Type _} (l : List α) (e d : α) (i : ℕ)
    (h : i = l.length) : (l ++ [e]).getD i d = e := by
  subst h
  exact getD_concat_self l e d

lemma getD_tail {α : Type _} (l : List α) (i : ℕ) (d : α) :
    l.tail.getD i d = l.getD (i + 1) d := by
  simp [List.getD_eq_getElem?_getD, List.getElem?_tail]

/-- The truncated-plus-snapshot list `pushHistory` builds before the
length check. -/
def pushBuf (now : ℤ) (s : EditorState) : List HistoryState :=
  s.history.take (s.historyIndex + 1).toNat ++ [snap s now]

lemma pushHistory_def (now : ℤ) (s : EditorState) :
    pushHistory now s =
      { s with
        history :=
          if (pushBuf now s).length > MAX_HISTORY_LENGTH then (pushBuf now s).tail
          else pushBuf now s,
        historyIndex :=
          ((if (pushBuf now s).length > MAX_HISTORY_LENGTH then (pushBuf now s).tail
            else pushBuf now s).length : ℤ) - 1 } := rfl

/-- Characterization of `pushHistory` on a well-formed state: the new
index points at the appended snapshot, and the entry just before it is
the entry the old index pointed at (when there was one). -/
lemma pushHistory_spec (now : ℤ) (s : EditorState)
    (hge : -1 ≤ s.historyIndex) (hlt : s.historyIndex < (s.history.length : ℤ))
    (hle : s.history.length ≤ MAX_HISTORY_LENGTH) :
    (pushHistory now s).annotations = s.annotations ∧
    (pushHistory now s).cropMask = s.cropMask ∧
    (pushHistory now s).history.getD (pushHistory now s).historyIndex.toNat emptyEntry
      = snap s now ∧
    (0 ≤ s.historyIndex →
      1 ≤ (pushHistory now s).historyIndex ∧
      (pushHistory now s).history.getD ((pushHistory now s).historyIndex - 1).toNat emptyEntry
        = s.history.getD s.historyIndex.toNat emptyEntry) ∧
    (s.historyIndex = -1 → (pushHistory now s).historyIndex = 0) ∧
    (pushHistory now s).history.length ≤ MAX_HISTORY_LENGTH ∧
    0 ≤ (pushHistory now s).historyIndex ∧
    (pushHistory now s).historyIndex < ((pushHistory now s).history.length : ℤ) := by
  have hMAX : MAX_HISTORY_LENGTH = 50 := rfl
  have ht : (((s.historyIndex + 1).toNat : ℕ) : ℤ) = s.historyIndex + 1 :=
    Int.toNat_of_nonneg (by omega)
  have htlen : (s.historyIndex + 1).toNat ≤ s.history.length := by omega
  have hlen0 : (pushBuf now s).length = (s.historyIndex + 1).toNat + 1 := by
    simp [pushBuf, List.length_take, Nat.min_eq_left htlen]
  have hlentake : (s.history.take (s.historyIndex + 1).toNat).length
      = (s.historyIndex + 1).toNat := by
    simp [List.length_take, Nat.min_eq_left htlen]
  by_cases hevict : (pushBuf now s).length > MAX_HISTORY_LENGTH
  · -- eviction: the combined list has 51 entries, so the index was 49
    have ht50 : (s.historyIndex + 1).toNat = 50 := by omega
    have hidx49 : s.historyIndex = 49 := by omega
    rw [pushHistory_def, if_pos hevict]
    have hlen1 : (pushBuf now s).tail.length = 50 := by
      simp [List.length_tail, hlen0, ht50]
    simp only [hlen1]
    refine ⟨trivial, trivial, ?_, ?_, ?_, ?_, ?_, ?_⟩
    · have h49 : ((((50 : ℕ)) : ℤ) - 1).toNat = 49 := by omega
      rw [h49, getD_tail]
      simp only [pushBuf]
      rw [getD_concat_of_length _ _ _ _ (by rw [hlentake, ht50])]
    · intro _
      refine ⟨by omega, ?_⟩
      have h48 : ((((50 : ℕ)) : ℤ) - 1 - 1).toNat = 48 := by omega
      rw [h48, getD_tail]
      simp only [pushBuf]
      rw [getD_append_left _ _ _ _ (by rw [hlentake]; omega)]
      rw [getD_take _ _ _ _ (by omega)]
      congr 1
      omega
    · intro h
      omega
    · omega
    · omega
    · omega
  · -- no eviction
    rw [pushHistory_def, if_neg hevict]
    simp only [hlen0]
    refine ⟨trivial, trivial, ?_, ?_, ?_, ?_, ?_, ?_⟩
    · have h1 : ((((s.historyIndex + 1).toNat + 1 : ℕ) : ℤ) - 1).toNat
          = (s.historyIndex + 1).toNat := by omega
      rw [h1]
      simp only [pushBuf]
      rw [getD_concat_of_length _ _ _ _ hlentake.symm]
    · intro hpos
      refine ⟨by omega, ?_⟩
      have h1 : ((((s.historyIndex + 1).toNat + 1 : ℕ) : ℤ) - 1 - 1).toNat
          = (s.historyIndex + 1).toNat - 1 := by omega
      rw [h1]
      simp only [pushBuf]
      rw [getD_append_left _ _ _ _ (by rw [hlentake]; omega)]
      rw [getD_take _ _ _ _ (by omega)]
      congr 1
      omega
    · intro h
      omega
    · omega
    · omega
    · omega

/-- Round trip, first half: an edit followed by `pushHistory` followed
by `undo` restores the pre-edit annotations and crop mask. -/
lemma undo_push_restores (s : EditorState) (now : ℤ)
    (A2 : List Annot) (M2 : Option CropMask)
    (hwf : historyWF s) (hs : inSync s) :
    (undo (pushHistory now { s with annotations := A2, cropMask := M2 })).annotations
      = s.annotations ∧
    (undo (pushHistory now { s with annotations := A2, cropMask := M2 })).cropMask
      = s.cropMask := by
  obtain ⟨hge, hlt, hle⟩ := hwf
  set s1 : EditorState := { s with annotations := A2, cropMask := M2 } with hs1
  obtain ⟨-, -, -, hprev, hneg, -, hpos, hib⟩ :=
    pushHistory_spec now s1 (by simpa [hs1] using hge) (by simpa [hs1] using hlt)
      (by simpa [hs1] using hle)
  by_cases hcase : 0 ≤ s.historyIndex
  · obtain ⟨hge1, hback⟩ := hprev (by simpa [hs1] using hcase)
    have hbr : (pushHistory now s1).historyIndex > 0 := by omega
    unfold undo
    rw [if_pos hbr]
    simp only
    rw [hback]
    have hsync := hs
    unfold inSync at hsync
    rw [if_pos hcase] at hsync
    have : s1.historyIndex = s.historyIndex := by simp [hs1]
    rw [this]
    have : s1.history = s.history := by simp [hs1]
    rw [this]
    exact ⟨hsync.1, hsync.2⟩
  · have hm1 : s1.historyIndex = -1 := by simp [hs1]; omega
    have h0 := hneg hm1
    unfold undo
    rw [if_neg (by omega), if_pos h0]
    have hsync := hs
    unfold inSync at hsync
    rw [if_neg hcase] at hsync
    exact ⟨hsync.1.symm, hsync.2.symm⟩

/-- Round trip, second half: when the index points at an entry, `redo`
right after `undo` restores the pre-undo annotations and crop mask. -/
lemma redo_undo_restores (s : EditorState) (hwf : historyWF s) (hs : inSync s)
    (hpos : 0 ≤ s.historyIndex) :
    (redo (undo s)).annotations = s.annotations ∧
    (redo (undo s)).cropMask = s.cropMask := by
  obtain ⟨hge, hlt, hle⟩ := hwf
  have hsync := hs
  unfold inSync at hsync
  rw [if_pos hpos] at hsync
  by_cases hgt : s.historyIndex > 0
  · have hu : undo s =
        { s with annotations := (s.history.getD (s.historyIndex - 1).toNat emptyEntry).annotations,
                 cropMask := (s.history.getD (s.historyIndex - 1).toNat emptyEntry).cropMask,
                 historyIndex := s.historyIndex - 1, selectedIds := [] } := by
      unfold undo
      rw [if_pos hgt]
    rw [hu]
    unfold redo
    rw [if_pos (by simp; omega)]
    simp only
    have : (s.historyIndex - 1 + 1).toNat = s.historyIndex.toNat := by omega
    rw [this]
    exact ⟨hsync.1, hsync.2⟩
  · have h0 : s.historyIndex = 0 := by omega
    have hu : undo s =
        { s with annotations := [], cropMask := none,
                 historyIndex := -1, selectedIds := [] } := by
      unfold undo
      rw [if_neg hgt, if_pos h0]
    rw [hu]
    unfold redo
    rw [if_pos (by simp; omega)]
    simp only
    have : ((-1 : ℤ) + 1).toNat = s.historyIndex.toNat := by omega
    rw [this]
    exact ⟨hsync.1, hsync.2⟩

/-- A sample rectangle annotation (90×90 at (10,10), default style). -/
def sampleRect : Annot :=
  { base := { id := "a1", x := 10, y := 10 },
    data := .rect 90 90 "#ef4444" 3 "transparent" 0 (some 0) }

/-- The store's initial state: no image loaded, empty history. -/
def editorInit : EditorState :=
  { annotations := [], selectedIds := [], history := [], historyIndex := -1,
    cropMask := none, cropArea := none, currentTool := .select }

/-- **C1.** History round-trip law: from any well-formed, in-sync editor
state, an edit (replacing the annotation list and crop mask) followed by
`pushHistory` followed by `undo` restores the pre-edit annotation set
(and crop mask); `redo` immediately after an `undo` (with no push in
between) restores the annotation set and crop mask that existed before
the undo; `undo` at index 0 restores the empty initial state with index
`-1`; and `undo` at index `-1` is a no-op. -/
theorem c1_history_roundtrip (s : EditorState) (now : ℤ)
    (A2 : List Annot) (M2 : Option CropMask)
    (hwf : historyWF s) (hs : inSync s) :
    ((undo (pushHistory now { s with annotations := A2, cropMask := M2 })).annotations
        = s.annotations ∧
     (undo (pushHistory now { s with annotations := A2, cropMask := M2 })).cropMask
        = s.cropMask) ∧
    (0 ≤ s.historyIndex →
      (redo (undo s)).annotations = s.annotations ∧
      (redo (undo s)).cropMask = s.cropMask) ∧
    (s.historyIndex = 0 →
      (undo s).annotations = [] ∧ (undo s).cropMask = none ∧
      (undo s).historyIndex = -1) ∧
    (s.historyIndex = -1 → undo s = s) := by
  refine ⟨undo_push_restores s now A2 M2 hwf hs,
    fun h => redo_undo_restores s hwf hs h, ?_, ?_⟩
  · intro h0
    unfold undo
    rw [if_neg (by omega), if_pos h0]
    exact ⟨rfl, rfl, rfl⟩
  · intro hm
    unfold undo
    rw [if_neg (by omega), if_neg (by omega)]

/-- Witness for C1 at a concrete input: pushing a just-drawn rectangle
onto the initial state and undoing returns to the empty annotation set. -/
theorem c1_history_roundtrip_witness :
    (undo (pushHistory 0 { editorInit with annotations := [sampleRect], cropMask := none })).annotations
      = [] ∧
    (undo (pushHistory 0 { editorInit with annotations := [sampleRect], cropMask := none })).cropMask
      = none := by
  have h := (c1_history_roundtrip editorInit 0 [sampleRect] none
    (by refine ⟨by norm_num [editorInit], by norm_num [editorInit], by norm_num [editorInit, MAX_HISTORY_LENGTH]⟩)
    (by norm_num [inSync, editorInit])).1
  simpa [editorInit] using h

/-- **C2.** History bounds: from any well-formed state (index in
`[-1, length)` and at most 50 entries), the invariant still holds after
`pushHistory`, `undo` and `redo`; and pushing from a full stack with the
index at the last entry evicts the oldest entry, keeping the length at
50. -/
theorem c2_history_bounds (s : EditorState) (now : ℤ) (hwf : historyWF s) :
    historyWF (pushHistory now s) ∧ historyWF (undo s) ∧ historyWF (redo s) ∧
    (s.history.length = 50 ∧ s.historyIndex = 49 →
      (pushHistory now s).history = s.history.tail ++ [snap s now] ∧
      (pushHistory now s).history.length = 50) := by
  obtain ⟨hge, hlt, hle⟩ := hwf
  obtain ⟨-, -, -, -, -, hlen, hpos, hib⟩ := pushHistory_spec now s hge hlt hle
  refine ⟨⟨by omega, hib, hlen⟩, ?_, ?_, ?_⟩
  · unfold historyWF undo
    by_cases h1 : s.historyIndex > 0
    · rw [if_pos h1]
      dsimp only
      exact ⟨by omega, by omega, hle⟩
    · rw [if_neg h1]
      by_cases h2 : s.historyIndex = 0
      · rw [if_pos h2]
        dsimp only
        exact ⟨by omega, by omega, hle⟩
      · rw [if_neg h2]
        exact ⟨hge, hlt, hle⟩
  · unfold historyWF redo
    by_cases h1 : s.historyIndex < (s.history.length : ℤ) - 1
    · rw [if_pos h1]
      dsimp only
      exact ⟨by omega, by omega, hle⟩
    · rw [if_neg h1]
      exact ⟨hge, hlt, hle⟩
  · rintro ⟨hlen50, hidx49⟩
    have htake : s.history.take (s.historyIndex + 1).toNat = s.history := by
      apply List.take_of_length_le
      omega
    have hbuf : pushBuf now s = s.history ++ [snap s now] := by
      simp [pushBuf, htake]
    have hbl : (pushBuf now s).length = 51 := by
      simp [hbuf, hlen50]
    have hcond : (pushBuf now s).length > MAX_HISTORY_LENGTH := by
      rw [hbl]; norm_num [MAX_HISTORY_LENGTH]
    have htl : (pushBuf now s).tail = s.history.tail ++ [snap s now] := by
      rw [hbuf]
      cases hh : s.history with
      | nil => rw [hh] at hlen50; simp at hlen50
      | cons a as => rfl
    rw [pushHistory_def, if_pos hcond]
    refine ⟨htl, ?_⟩
    simp only [htl, List.length_append, List.length_tail, hlen50, List.length_singleton]

/-- Witness for C2: the invariant holds after pushing onto the empty
initial state. -/
theorem c2_history_bounds_witness : historyWF (pushHistory 0 editorInit) :=
  (c2_history_bounds editorInit 0
    ⟨by norm_num [editorInit], by norm_num [editorInit],
     by norm_num [editorInit, MAX_HISTORY_LENGTH]⟩).1

/-- `ToolConfig` from the types file (the store's `defaultToolConfig`
also sets `magnifierScale`, which the factory reads). -/
structure ToolConfig where
  strokeColor : String
  fillColor : String
  strokeWidth : ℝ
  fillOpacity : ℝ
  lineStyle : LineStyle
  fontSize : ℝ
  fontFamily : String
  textBackgroundColor : String
  textStyle : TextStyle
  bubbleStroke : String
  bubbleFill : String
  bubbleTailPosition : BubbleTailPosition
  brushSize : ℝ
  markerStyle : MarkerStyle
  markerType : MarkerType
  markerSize : ℝ
  blurRadius : ℝ
  blurCornerRadius : ℝ
  cornerRadius : ℝ
  arrowStyle : ArrowStyle
  magnifierScale : ℝ

/-- The string form of a tool type, as it appears in the thrown
error message of `createAnnotation`. -/
def toolTypeStr : ToolType → String
  | .select => "select"
  | .pan => "pan"
  | .rectangle => "rectangle"
  | .ellipse => "ellipse"
  | .arrow => "arrow"
  | .line => "line"
  | .text => "text"
  | .brush => "brush"
  | .marker => "marker"
  | .blur => "blur"
  | .crop => "crop"
  | .image => "image"
  | .magnifier => "magnifier"

/-- `createAnnotation` from `editorStore.ts`.  The fresh id produced by
`generateId()` (in `lib/utils`, not part of the annotation engine) is
passed in as `id`; the untyped `extra` record spread
(`{ ...rect, ...extra }`) is modelled as an optional update function
applied to the constructed annotation; the thrown `Error` is the
`.error` case.  JS falsiness of `config.bubbleStroke || config.strokeColor`
is the empty-string test. -/
noncomputable def createAnnot (type : ToolType) (config : ToolConfig)
    (px py : ℝ) (id : String) (extra : Option (Annot → Annot)) :
    Except String Annot :=
  let applyExtra : Annot → Annot := fun a =>
    match extra with
    | some f => f a
    | none => a
  let baseProps : BaseFields :=
    { id := id, x := px, y := py, visible := some true, locked := some false }
  match type with
  | .rectangle =>
      .ok (applyExtra
        { base := baseProps,
          data := .rect 0 0 config.strokeColor config.strokeWidth
            config.fillColor config.fillOpacity (some config.cornerRadius) })
  | .ellipse =>
      .ok (applyExtra
        { base := baseProps,
          data := .ellipse 0 0 config.strokeColor config.strokeWidth
            config.fillColor config.fillOpacity })
  | .arrow =>
      .ok (applyExtra
        { base := baseProps,
          data := .arrow [0, 0, 0, 0] config.strokeColor config.strokeWidth
            config.lineStyle config.arrowStyle (some 15) (some 12) })
  | .line =>
      .ok (applyExtra
        { base := baseProps,
          data := .line [0, 0, 0, 0] config.strokeColor config.strokeWidth
            config.lineStyle })
  | .text =>
      .ok (applyExtra
        { base := baseProps,
          data := .text "" config.fontSize config.fontFamily config.strokeColor
            config.textStyle
            (some (if config.bubbleStroke = "" then config.strokeColor
                   else config.bubbleStroke))
            (some config.bubbleFill) (some config.bubbleTailPosition)
            (some config.textBackgroundColor) (some 4) none })
  | .brush =>
      .ok (applyExtra
        { base := baseProps,
          data := .brush [] config.strokeColor config.brushSize (some 0.5)
            (some "round") (some "round") })
  | .marker =>
      .ok (applyExtra
        { base := baseProps,
          data := .marker (.num 1) config.markerStyle config.markerType
            config.markerSize config.strokeColor "#ffffff" none none })
  | .blur =>
      .ok (applyExtra
        { base := baseProps,
          data := .blur 0 0 config.blurRadius config.blurCornerRadius })
  | .magnifier =>
      .ok (applyExtra
        { base := { baseProps with x := px + 120, y := py + 80 },
          data := .magnifier px py 40 (40 * config.magnifierScale)
            config.magnifierScale })
  | t => .error ("未知的标注类型: " ++ toolTypeStr t)

/-- The image branch of `handlePaste` in `Editor.tsx`: build an image
annotation literal at the insert position, `addAnnotation` it (which
pushes history), then push history once more. -/
def pasteImage (now : ℤ) (id src : String) (x y w h : ℝ) (s : EditorState) :
    EditorState :=
  pushHistory now
    (addAnnot now { base := { id := id, x := x, y := y },
                         data := .image w h src } s)

/-- `handleCropConfirm` from `Editor.tsx`: no-op without a live crop
area; otherwise push history, then set the crop mask from the crop
area, clear the crop area and switch back to the select tool. -/
def handleCropConfirm (now : ℤ) (s : EditorState) : EditorState :=
  match s.cropArea with
  | none => s
  | some area =>
      let s1 := pushHistory now s
      { s1 with
        cropMask := some { x := area.x, y := area.y,
                           width := area.width, height := area.height },
        cropArea := none, currentTool := .select }

/-- **C9.** Annotation factory contract: for every tool type with a
corresponding variant, the factory (with no overrides) returns an
annotation whose tag equals the requested tool type and whose every
variant field is populated from the style defaults (spelled out
explicitly below); for the interaction-mode tools `select`, `pan` and
`crop` it fails with the unknown-tool error, whatever the overrides. -/
theorem c9_factory_contract (cfg : ToolConfig) (px py : ℝ) (id : String) :
    (createAnnot .rectangle cfg px py id none = .ok
      { base := { id := id, x := px, y := py, visible := some true, locked := some false },
        data := .rect 0 0 cfg.strokeColor cfg.strokeWidth cfg.fillColor
          cfg.fillOpacity (some cfg.cornerRadius) }) ∧
    (createAnnot .ellipse cfg px py id none = .ok
      { base := { id := id, x := px, y := py, visible := some true, locked := some false },
        data := .ellipse 0 0 cfg.strokeColor cfg.strokeWidth cfg.fillColor
          cfg.fillOpacity }) ∧
    (createAnnot .arrow cfg px py id none = .ok
      { base := { id := id, x := px, y := py, visible := some true, locked := some false },
        data := .arrow [0, 0, 0, 0] cfg.strokeColor cfg.strokeWidth cfg.lineStyle
          cfg.arrowStyle (some 15) (some 12) }) ∧
    (createAnnot .line cfg px py id none = .ok
      { base := { id := id, x := px, y := py, visible := some true, locked := some false },
        data := .line [0, 0, 0, 0] cfg.strokeColor cfg.strokeWidth cfg.lineStyle }) ∧
    (createAnnot .text cfg px py id none = .ok
      { base := { id := id, x := px, y := py, visible := some true, locked := some false },
        data := .text "" cfg.fontSize cfg.fontFamily cfg.strokeColor cfg.textStyle
          (some (if cfg.bubbleStroke = "" then cfg.strokeColor else cfg.bubbleStroke))
          (some cfg.bubbleFill) (some cfg.bubbleTailPosition)
          (some cfg.textBackgroundColor) (some 4) none }) ∧
    (createAnnot .brush cfg px py id none = .ok
      { base := { id := id, x := px, y := py, visible := some true, locked := some false },
        data := .brush [] cfg.strokeColor cfg.brushSize (some 0.5)
          (some "round") (some "round") }) ∧
    (createAnnot .marker cfg px py id none = .ok
      { base := { id := id, x := px, y := py, visible := some true, locked := some false },
        data := .marker (.num 1) cfg.markerStyle cfg.markerType cfg.markerSize
          cfg.strokeColor "#ffffff" none none }) ∧
    (createAnnot .blur cfg px py id none = .ok
      { base := { id := id, x := px, y := py, visible := some true, locked := some false },
        data := .blur 0 0 cfg.blurRadius cfg.blurCornerRadius }) ∧
    (createAnnot .magnifier cfg px py id none = .ok
      { base := { id := id, x := px + 120, y := py + 80, visible := some true,
                  locked := some false },
        data := .magnifier px py 40 (40 * cfg.magnifierScale) cfg.magnifierScale }) ∧
    (∀ extra, createAnnot .select cfg px py id extra
        = .error ("未知的标注类型: " ++ toolTypeStr .select)) ∧
    (∀ extra, createAnnot .pan cfg px py id extra
        = .error ("未知的标注类型: " ++ toolTypeStr .pan)) ∧
    (∀ extra, createAnnot .crop cfg px py id extra
        = .error ("未知的标注类型: " ++ toolTypeStr .crop)) :=
  ⟨rfl, rfl, rfl, rfl, rfl, rfl, rfl, rfl, rfl,
   fun _ => rfl, fun _ => rfl, fun _ => rfl⟩

/-- **C10.** The factory also throws for tool type `image`, even though
`image` is an annotation variant of the data model (pasted images carry
that tag); the clipboard-paste handler instead constructs the image
annotation literally and adds it through `addAnnotation`. -/
theorem c10_image_not_constructible :
    (∀ (cfg : ToolConfig) (px py : ℝ) (id : String) extra,
       createAnnot .image cfg px py id extra
         = .error ("未知的标注类型: " ++ toolTypeStr .image)) ∧
    (∀ (now : ℤ) (id src : String) (x y w h : ℝ) (s : EditorState),
       (pasteImage now id src x y w h s).annotations
           = s.annotations ++
             [{ base := { id := id, x := x, y := y }, data := .image w h src }] ∧
       (Annot.tag { base := { id := id, x := x, y := y },
                         data := .image w h src }) = .image) :=
  ⟨fun _ _ _ _ _ => rfl, fun _ _ _ _ _ _ _ _ => ⟨rfl, rfl⟩⟩

/-- The failing input for the crop-confirmation claim: a fresh editor
with a live crop area awaiting confirmation. -/
def cropBugState : EditorState :=
  { editorInit with cropArea := some { x := 1, y := 2, width := 30, height := 40 } }

/-- **C5 (code bug).** Confirming a crop does set the crop mask, leaves
the annotation list unchanged, and pushes a history entry — but
`handleCropConfirm` calls `pushHistory()` *before* `setCropMask(...)`,
so the pushed snapshot records the pre-confirmation mask (`null` here),
not the confirmed one; consequently undo followed by redo loses the
confirmed mask instead of restoring it. -/
theorem c5_crop_confirm_snapshot_misses_mask :
    (handleCropConfirm 0 cropBugState).cropMask
        = some { x := 1, y := 2, width := 30, height := 40 } ∧
    (handleCropConfirm 0 cropBugState).annotations = cropBugState.annotations ∧
    (handleCropConfirm 0 cropBugState).history.length = 1 ∧
    ((handleCropConfirm 0 cropBugState).history.getD
        (handleCropConfirm 0 cropBugState).historyIndex.toNat emptyEntry).cropMask
      = none ∧
    (redo (undo (handleCropConfirm 0 cropBugState))).cropMask = none := by
  refine ⟨rfl, rfl, rfl, rfl, rfl⟩

/-- Interleave a list of (x, y) coordinate pairs into the flat
`[x1, y1, x2, y2, …]` array layout the source uses for `points`. -/
def flattenPts : List (ℝ × ℝ) → List ℝ
  | [] => []
  | p :: ps => p.1 :: p.2 :: flattenPts ps

lemma flattenPts_length (ps : List (ℝ × ℝ)) :
    (flattenPts ps).length = 2 * ps.length := by
  induction ps with
  | nil => rfl
  | cons p ps ih => simp [flattenPts, ih]; omega

/-- The `points.map((val, i) => i % 2 === 0 ? val * scaleX : val * scaleY)`
rescaling of a flat points array in `handleTransformEnd`. -/
def scalePoints (sx sy : ℝ) (points : List ℝ) : List ℝ :=
  points.mapIdx (fun i v => if i % 2 = 0 then v * sx else v * sy)

lemma scalePoints_aux (sx sy : ℝ) (ps : List (ℝ × ℝ)) :
    ∀ k : ℕ, k % 2 = 0 →
      (flattenPts ps).mapIdx (fun i v => if (i + k) % 2 = 0 then v * sx else v * sy)
        = flattenPts (ps.map fun p => (p.1 * sx, p.2 * sy)) := by
  induction ps with
  | nil => intro k hk; simp [flattenPts]
  | cons p ps ih =>
      intro k hk
      simp only [flattenPts, List.mapIdx_cons, List.map_cons]
      have h0 : (0 + k) % 2 = 0 := by omega
      have h1 : ¬ (0 + 1 + k) % 2 = 0 := by omega
      rw [if_pos h0, if_neg h1]
      have hfun : (fun (i : ℕ) (v : ℝ) =>
            if (i + 1 + 1 + k) % 2 = 0 then v * sx else v * sy)
          = fun (i : ℕ) (v : ℝ) => if (i + (k + 2)) % 2 = 0 then v * sx else v * sy := by
        funext i v
        have he : i + 1 + 1 + k = i + (k + 2) := by omega
        rw [he]
      rw [hfun, ih (k + 2) (by omega)]

lemma scalePoints_flatten (sx sy : ℝ) (ps : List (ℝ × ℝ)) :
    scalePoints sx sy (flattenPts ps)
      = flattenPts (ps.map fun p => (p.1 * sx, p.2 * sy)) := by
  have h := scalePoints_aux sx sy ps 0 rfl
  simpa [scalePoints] using h

/-- `handleTransformEnd` from `AnnotationCanvas.tsx`: the node's final
position `(nx, ny)` and rotation `nrot` are written back, the node's
scale is reset to 1, and the applied scale `(sx, sy)` is folded into the
annotation's own numeric fields per variant.  The JS truthiness guard
`if (annotation.strokeWidth)` is the nonzero test. -/
noncomputable def handleTransformEnd (nx ny nrot sx sy : ℝ) (a : Annot) :
    Annot :=
  { base := { a.base with x := nx, y := ny, rotation := some nrot },
    data :=
      match a.data with
      | .rect w h st sw f fo cr => .rect (w * sx) (h * sy) st sw f fo cr
      | .blur w h br cr => .blur (w * sx) (h * sy) br cr
      | .image w h src => .image (w * sx) (h * sy) src
      | .ellipse rx ry st sw f fo => .ellipse (rx * sx) (ry * sy) st sw f fo
      | .arrow pts st sw ls asy pl pw =>
          .arrow (scalePoints sx sy pts) st
            (if sw ≠ 0 then sw * max sx sy else sw) ls asy pl pw
      | .line pts st sw ls =>
          .line (scalePoints sx sy pts) st
            (if sw ≠ 0 then sw * max sx sy else sw) ls
      | .brush pts st sw tn lc lj =>
          .brush (scalePoints sx sy pts) st
            (if sw ≠ 0 then sw * max sx sy else sw) tn lc lj
      | .text t fs ff f ts bs bf btp bg pd w =>
          .text t (fs * max sx sy) ff f ts bs bf btp bg pd w
      | .marker v ms mt sz f tc st sw =>
          .marker v ms mt (sz * max sx sy) f tc st sw
      | .magnifier mx my sr tr sc => .magnifier mx my sr tr sc }

lemma strokeWidth_fold (sw sx sy : ℝ) :
    (if sw ≠ 0 then sw * max sx sy else sw) = sw * max sx sy := by
  by_cases h : sw = 0
  · subst h; simp
  · rw [if_pos h]

/-- **C7.** Transform normalization: the scale reported at
transform-end is folded back into the annotation's own numeric fields —
width/height × (sx, sy) for rectangle, mosaic and image; radii × (sx, sy)
for ellipse; x coordinates × sx and y coordinates × sy for the point
lists of arrow, line and brush, whose stroke width is × max(sx, sy);
font size (text) and marker size × max(sx, sy). -/
theorem c7_transform_normalization (nx ny nrot sx sy : ℝ) :
    (∀ b w h st sw f fo cr,
      handleTransformEnd nx ny nrot sx sy ⟨b, .rect w h st sw f fo cr⟩
        = ⟨{ b with x := nx, y := ny, rotation := some nrot },
           .rect (w * sx) (h * sy) st sw f fo cr⟩) ∧
    (∀ b w h br cr,
      handleTransformEnd nx ny nrot sx sy ⟨b, .blur w h br cr⟩
        = ⟨{ b with x := nx, y := ny, rotation := some nrot },
           .blur (w * sx) (h * sy) br cr⟩) ∧
    (∀ b w h src,
      handleTransformEnd nx ny nrot sx sy ⟨b, .image w h src⟩
        = ⟨{ b with x := nx, y := ny, rotation := some nrot },
           .image (w * sx) (h * sy) src⟩) ∧
    (∀ b rx ry st sw f fo,
      handleTransformEnd nx ny nrot sx sy ⟨b, .ellipse rx ry st sw f fo⟩
        = ⟨{ b with x := nx, y := ny, rotation := some nrot },
           .ellipse (rx * sx) (ry * sy) st sw f fo⟩) ∧
    (∀ b ps st sw ls asy pl pw,
      handleTransformEnd nx ny nrot sx sy ⟨b, .arrow (flattenPts ps) st sw ls asy pl pw⟩
        = ⟨{ b with x := nx, y := ny, rotation := some nrot },
           .arrow (flattenPts (ps.map fun p => (p.1 * sx, p.2 * sy))) st
             (sw * max sx sy) ls asy pl pw⟩) ∧
    (∀ b ps st sw ls,
      handleTransformEnd nx ny nrot sx sy ⟨b, .line (flattenPts ps) st sw ls⟩
        = ⟨{ b with x := nx, y := ny, rotation := some nrot },
           .line (flattenPts (ps.map fun p => (p.1 * sx, p.2 * sy))) st
             (sw * max sx sy) ls⟩) ∧
    (∀ b ps st sw tn lc lj,
      handleTransformEnd nx ny nrot sx sy ⟨b, .brush (flattenPts ps) st sw tn lc lj⟩
        = ⟨{ b with x := nx, y := ny, rotation := some nrot },
           .brush (flattenPts (ps.map fun p => (p.1 * sx, p.2 * sy))) st
             (sw * max sx sy) tn lc lj⟩) ∧
    (∀ b t fs ff f ts bs bf btp bg pd w,
      handleTransformEnd nx ny nrot sx sy ⟨b, .text t fs ff f ts bs bf btp bg pd w⟩
        = ⟨{ b with x := nx, y := ny, rotation := some nrot },
           .text t (fs * max sx sy) ff f ts bs bf btp bg pd w⟩) ∧
    (∀ b v ms mt sz f tc st sw,
      handleTransformEnd nx ny nrot sx sy ⟨b, .marker v ms mt sz f tc st sw⟩
        = ⟨{ b with x := nx, y := ny, rotation := some nrot },
           .marker v ms mt (sz * max sx sy) f tc st sw⟩) := by
  refine ⟨fun _ _ _ _ _ _ _ _ => rfl, fun _ _ _ _ _ => rfl, fun _ _ _ _ => rfl,
    fun _ _ _ _ _ _ _ => rfl, ?_, ?_, ?_, fun _ _ _ _ _ _ _ _ _ _ _ _ => rfl,
    fun _ _ _ _ _ _ _ _ _ => rfl⟩
  · intro b ps st sw ls asy pl pw
    simp only [handleTransformEnd, scalePoints_flatten, strokeWidth_fold]
  · intro b ps st sw ls
    simp only [handleTransformEnd, scalePoints_flatten, strokeWidth_fold]
  · intro b ps st sw tn lc lj
    simp only [handleTransformEnd, scalePoints_flatten, strokeWidth_fold]

/-- The pointer-up size-threshold check of `handleMouseUp` in
`AnnotationCanvas.tsx` (`isValid`): rectangles/mosaics need width and
height above 5, ellipses both radii above 3, arrows/lines a segment
length above 10 (`points[2]`,`points[3]` are the endpoint relative to
the start), brushes more than 4 flat point entries; every other variant
leaves `isValid` false. -/
def isValidDraft (a : Annot) : Prop :=
  match a.data with
  | .rect w h _ _ _ _ _ => w > 5 ∧ h > 5
  | .blur w h _ _ => w > 5 ∧ h > 5
  | .ellipse rx ry _ _ _ _ => rx > 3 ∧ ry > 3
  | .arrow pts _ _ _ _ _ _ =>
      Real.sqrt ((pts.getD 2 0) ^ 2 + (pts.getD 3 0) ^ 2) > 10
  | .line pts _ _ _ =>
      Real.sqrt ((pts.getD 2 0) ^ 2 + (pts.getD 3 0) ^ 2) > 10
  | .brush pts _ _ _ _ _ => pts.length > 4
  | _ => False

open Classical in
/-- The drawing-commit branch of `handleMouseUp`: a valid draft is
committed through `addAnnotation` (which pushes history); an invalid
draft is dropped with no state change. -/
noncomputable def handleDrawMouseUp (now : ℤ) (draft : Annot)
    (s : EditorState) : EditorState :=
  if isValidDraft draft then addAnnot now draft s else s

/-- **C6.** Drawing-gesture commit threshold: pointer-up commits the
draft via the history-pushing `addAnnotation` iff the draft meets its
variant's minimum size (rect/mosaic: both sides > 5; ellipse: both
radii > 3; arrow/line: segment length > 10; brush: more than 2 points),
and a sub-threshold draft leaves the whole editor state — annotation
list, history stack and index — unchanged, with no error surfaced. -/
theorem c6_draw_commit_threshold (now : ℤ) (draft : Annot) (s : EditorState) :
    (isValidDraft draft →
      handleDrawMouseUp now draft s = addAnnot now draft s ∧
      (handleDrawMouseUp now draft s).annotations = s.annotations ++ [draft]) ∧
    (¬ isValidDraft draft → handleDrawMouseUp now draft s = s) ∧
    (∀ b w h st sw f fo cr,
        isValidDraft ⟨b, .rect w h st sw f fo cr⟩ ↔ 5 < w ∧ 5 < h) ∧
    (∀ b w h br cr, isValidDraft ⟨b, .blur w h br cr⟩ ↔ 5 < w ∧ 5 < h) ∧
    (∀ b rx ry st sw f fo,
        isValidDraft ⟨b, .ellipse rx ry st sw f fo⟩ ↔ 3 < rx ∧ 3 < ry) ∧
    (∀ b dx dy st sw ls asy pl pw,
        isValidDraft ⟨b, .arrow [0, 0, dx, dy] st sw ls asy pl pw⟩ ↔
          10 < Real.sqrt (dx ^ 2 + dy ^ 2)) ∧
    (∀ b dx dy st sw ls,
        isValidDraft ⟨b, .line [0, 0, dx, dy] st sw ls⟩ ↔
          10 < Real.sqrt (dx ^ 2 + dy ^ 2)) ∧
    (∀ b ps st sw tn lc lj,
        isValidDraft ⟨b, .brush (flattenPts ps) st sw tn lc lj⟩ ↔ 2 < ps.length) := by
  refine ⟨?_, ?_, ?_, ?_, ?_, ?_, ?_, ?_⟩
  · intro hv
    rw [handleDrawMouseUp, if_pos hv]
    exact ⟨rfl, rfl⟩
  · intro hv
    rw [handleDrawMouseUp, if_neg hv]
  · intro b w h st sw f fo cr; exact Iff.rfl
  · intro b w h br cr; exact Iff.rfl
  · intro b rx ry st sw f fo; exact Iff.rfl
  · intro b dx dy st sw ls asy pl pw
    simp [isValidDraft, List.getD]
  · intro b dx dy st sw ls
    simp [isValidDraft, List.getD]
  · intro b ps st sw tn lc lj
    simp only [isValidDraft, flattenPts_length]
    omega

/-- Witness for C6 at a concrete input: the 90×90 rectangle draft is
above threshold and committing it appends it to the empty editor. -/
theorem c6_draw_commit_threshold_witness :
    isValidDraft sampleRect ∧
    (handleDrawMouseUp 0 sampleRect editorInit).annotations = [sampleRect] := by
  have hv : isValidDraft sampleRect := by
    constructor <;> norm_num
  have h := ((c6_draw_commit_threshold 0 sampleRect editorInit).1 hv).2
  exact ⟨hv, by simpa [editorInit] using h⟩

/-- `ViewState` from the types file: user zoom scale and pan offsets.
The view math involves only field operations, so it is modelled over
the rationals. -/
structure ViewState where
  scale : ℚ
  offsetX : ℚ
  offsetY : ℚ

/-- Modelled from the spec: `clamp` lives in `lib/utils`, which is not
under `src/`; spec §4.4 describes wheel zoom as "clamped to
[0.1, 5.0]", the standard clamp-into-interval helper. -/
def clamp (value lo hi : ℚ) : ℚ := min (max value lo) hi

/-- The canvas-zoom branch of `handleWheel` in `AnnotationCanvas.tsx`
(taken when no annotation is selected): multiply or divide the view
scale by 1.1 depending on the wheel direction, clamp into [0.1, 5], and
recompute the offsets about the pointer position `(px, py)`.
`(fitX, fitY)` is the image-fit offset returned by `getImageFit`. -/
def wheelZoom (view : ViewState) (fitX fitY px py deltaY : ℚ) : ViewState :=
  let oldScale := view.scale
  let newScale :=
    if deltaY < 0 then clamp (oldScale * (11 / 10)) (1 / 10) 5
    else clamp (oldScale / (11 / 10)) (1 / 10) 5
  let mouseX := (px - fitX - view.offsetX) / oldScale
  let mouseY := (py - fitY - view.offsetY) / oldScale
  { scale := newScale,
    offsetX := px - fitX - mouseX * newScale,
    offsetY := py - fitY - mouseY * newScale }

/-- `getPointerPosition` in `AnnotationCanvas.tsx`: device coordinates
to image coordinates, `(pointer − fitOffset − viewOffset) / (fitScale · viewScale)`. -/
def imagePoint (view : ViewState) (fitScale fitX fitY px py : ℚ) : ℚ × ℚ :=
  ((px - fitX - view.offsetX) / (fitScale * view.scale),
   (py - fitY - view.offsetY) / (fitScale * view.scale))

lemma clamp_mem (value lo hi : ℚ) (h : lo ≤ hi) :
    lo ≤ clamp value lo hi ∧ clamp value lo hi ≤ hi :=
  ⟨le_min (le_max_right value lo) h, min_le_right _ _⟩

/-- **C8.** Wheel zoom fixed-point law: after a canvas zoom (the wheel
branch taken with no selection) the view scale lies in [0.1, 5], and
the image-space point under the pointer — as computed by the
device-to-image conversion `getPointerPosition` — is unchanged,
whatever the current pan offsets. -/
theorem c8_wheel_zoom_fixed_point (view : ViewState)
    (fitScale fitX fitY px py deltaY : ℚ)
    (hfit : fitScale ≠ 0) (hscale : view.scale ≠ 0) :
    (1 / 10 ≤ (wheelZoom view fitX fitY px py deltaY).scale ∧
      (wheelZoom view fitX fitY px py deltaY).scale ≤ 5) ∧
    imagePoint (wheelZoom view fitX fitY px py deltaY) fitScale fitX fitY px py
      = imagePoint view fitScale fitX fitY px py := by
  have hb : (1 : ℚ) / 10 ≤ 5 := by norm_num
  have hrange : 1 / 10 ≤ (wheelZoom view fitX fitY px py deltaY).scale ∧
      (wheelZoom view fitX fitY px py deltaY).scale ≤ 5 := by
    unfold wheelZoom
    dsimp only
    by_cases hd : deltaY < 0
    · rw [if_pos hd]
      exact clamp_mem _ _ _ hb
    · rw [if_neg hd]
      exact clamp_mem _ _ _ hb
  refine ⟨hrange, ?_⟩
  have hns : (wheelZoom view fitX fitY px py deltaY).scale ≠ 0 := by
    have := hrange.1
    intro h
    rw [h] at this
    norm_num at this
  unfold imagePoint
  have hox : (wheelZoom view fitX fitY px py deltaY).offsetX
      = px - fitX - (px - fitX - view.offsetX) / view.scale
          * (wheelZoom view fitX fitY px py deltaY).scale := rfl
  have hoy : (wheelZoom view fitX fitY px py deltaY).offsetY
      = py - fitY - (py - fitY - view.offsetY) / view.scale
          * (wheelZoom view fitX fitY px py deltaY).scale := rfl
  rw [hox, hoy]
  refine Prod.ext ?_ ?_ <;>
    · simp only
      field_simp
      ring

/-- Witness for C8 at a concrete input: zoom in with the pointer at
(200, 100), fit offset (0, 0), fit scale 1 from view scale 1, pan (3, 4). -/
theorem c8_wheel_zoom_fixed_point_witness :
    ((1 : ℚ) / 10 ≤ (wheelZoom ⟨1, 3, 4⟩ 0 0 200 100 (-1)).scale ∧
      (wheelZoom ⟨1, 3, 4⟩ 0 0 200 100 (-1)).scale ≤ 5) ∧
    imagePoint (wheelZoom ⟨1, 3, 4⟩ 0 0 200 100 (-1)) 1 0 0 200 100
      = imagePoint ⟨1, 3, 4⟩ 1 0 0 200 100 :=
  c8_wheel_zoom_fixed_point ⟨1, 3, 4⟩ 1 0 0 200 100 (-1) (by norm_num) (by norm_num)

/-- JS `Math.atan2(y, x)` for finite arguments: the argument of the
complex number `x + y·i`, in (−π, π]. -/
noncomputable def atan2 (y x : ℝ) : ℝ := Complex.arg ⟨x, y⟩

/-- The two tangent segments (or degraded direct segments) returned by
`calculateTangentLines`; each is `[x1, y1, x2, y2]` with the first point
on the large (target) circle, in the large circle's frame. -/
structure TangentLines where
  line1 : ℝ × ℝ × ℝ × ℝ
  line2 : ℝ × ℝ × ℝ × ℝ

open Classical in
/-- `calculateTangentLines` from `RenderAnnotation.tsx`: with the large
circle at the origin and the small circle at `(srcRelX, srcRelY)`, if
the center distance is within `|R − r| + 1` return the direct
center-to-center segment twice; otherwise return the two external
tangent segments at angles `atan2 ± (π/2 − asin((R − r)/d))`. -/
noncomputable def calculateTangentLines (srcRelX srcRelY srcRadius tgtRadius : ℝ) :
    TangentLines :=
  let dx := srcRelX
  let dy := srcRelY
  let d := Real.sqrt (dx * dx + dy * dy)
  if d ≤ |tgtRadius - srcRadius| + 1 then
    { line1 := (0, 0, srcRelX, srcRelY), line2 := (0, 0, srcRelX, srcRelY) }
  else
    let angle := atan2 dy dx
    let alpha := Real.arcsin ((tgtRadius - srcRadius) / d)
    let angle1 := angle + Real.pi / 2 - alpha
    let angle2 := angle - Real.pi / 2 + alpha
    { line1 := (tgtRadius * Real.cos angle1, tgtRadius * Real.sin angle1,
                srcRelX + srcRadius * Real.cos angle1,
                srcRelY + srcRadius * Real.sin angle1),
      line2 := (tgtRadius * Real.cos angle2, tgtRadius * Real.sin angle2,
                srcRelX + srcRadius * Real.cos angle2,
                srcRelY + srcRadius * Real.sin angle2) }

/-- The first tangent angle the claim describes:
`atan2(dy,dx) + (π/2 − asin((R−r)/d))`. -/
noncomputable def tangentAngle1 (dx dy r R : ℝ) : ℝ :=
  atan2 dy dx + (Real.pi / 2 - Real.arcsin ((R - r) / Real.sqrt (dx * dx + dy * dy)))

/-- The second tangent angle the claim describes:
`atan2(dy,dx) − (π/2 − asin((R−r)/d))`. -/
noncomputable def tangentAngle2 (dx dy r R : ℝ) : ℝ :=
  atan2 dy dx - (Real.pi / 2 - Real.arcsin ((R - r) / Real.sqrt (dx * dx + dy * dy)))

/-- Claim C4 exactly as stated: the solver degrades to the direct
segment iff `d ≤ |R − r|`, and for `d > |R − r|` it returns the two
tangent segments, whose large-circle endpoints lie at distance exactly
`R` from the origin and whose form follows the tangent angles. -/
def tangentClaimAsStated : Prop :=
  ∀ dx dy r R : ℝ, 0 < r → 0 < R →
    (Real.sqrt (dx * dx + dy * dy) ≤ |R - r| →
      calculateTangentLines dx dy r R
        = ⟨(0, 0, dx, dy), (0, 0, dx, dy)⟩) ∧
    (|R - r| < Real.sqrt (dx * dx + dy * dy) →
      Real.sqrt ((calculateTangentLines dx dy r R).line1.1 ^ 2 +
          (calculateTangentLines dx dy r R).line1.2.1 ^ 2) = R ∧
      Real.sqrt ((calculateTangentLines dx dy r R).line2.1 ^ 2 +
          (calculateTangentLines dx dy r R).line2.2.1 ^ 2) = R ∧
      (calculateTangentLines dx dy r R).line1
        = (R * Real.cos (tangentAngle1 dx dy r R),
           R * Real.sin (tangentAngle1 dx dy r R),
           dx + r * Real.cos (tangentAngle1 dx dy r R),
           dy + r * Real.sin (tangentAngle1 dx dy r R)) ∧
      (calculateTangentLines dx dy r R).line2
        = (R * Real.cos (tangentAngle2 dx dy r R),
           R * Real.sin (tangentAngle2 dx dy r R),
           dx + r * Real.cos (tangentAngle2 dx dy r R),
           dy + r * Real.sin (tangentAngle2 dx dy r R)))

/-- **C4 counterexample.** The claim as stated is false: at
`(dx, dy) = (21, 0)`, `r = 20`, `R = 40` the distance `d = 21` exceeds
`|R − r| = 20`, yet the solver still takes its fallback branch (its
real threshold is `|R − r| + 1 = 21`), so the large-circle endpoint is
the origin, at distance 0 ≠ 40. -/
theorem c4_tangent_claim_false : ¬ tangentClaimAsStated := by
  intro hclaim
  have hs : Real.sqrt ((21 : ℝ) * 21 + 0 * 0) = 21 := by
    rw [show (21 : ℝ) * 21 + 0 * 0 = 21 ^ 2 by ring]
    exact Real.sqrt_sq (by norm_num)
  have hgt : |(40 : ℝ) - 20| < Real.sqrt ((21 : ℝ) * 21 + 0 * 0) := by
    rw [hs]
    norm_num
  have hdir : calculateTangentLines 21 0 20 40
      = ⟨(0, 0, 21, 0), (0, 0, 21, 0)⟩ := by
    unfold calculateTangentLines
    rw [if_pos (by rw [hs]; norm_num)]
  have h := ((hclaim 21 0 20 40 (by norm_num) (by norm_num)).2 hgt).1
  rw [hdir] at h
  norm_num at h

/-- **C4 (amended).** Two-circle tangent solver with the code's actual
threshold: for `d ≤ |R − r| + 1` the solver returns the direct segment
between the centers (twice); for `d > |R − r| + 1` it returns the two
external tangent segments at angles `atan2(dy,dx) ± (π/2 − asin((R−r)/d))`,
whose endpoints on the large circle are `R·(cos θ, sin θ)` — hence at
distance exactly `R` from the large-circle center — and on the small
circle are its center plus `r·(cos θ, sin θ)` for the same angle. -/
theorem c4_tangent_solver (dx dy r R : ℝ) (hr : 0 < r) (hR : 0 < R) :
    (Real.sqrt (dx * dx + dy * dy) ≤ |R - r| + 1 →
      calculateTangentLines dx dy r R
        = ⟨(0, 0, dx, dy), (0, 0, dx, dy)⟩) ∧
    (|R - r| + 1 < Real.sqrt (dx * dx + dy * dy) →
      (calculateTangentLines dx dy r R).line1
        = (R * Real.cos (tangentAngle1 dx dy r R),
           R * Real.sin (tangentAngle1 dx dy r R),
           dx + r * Real.cos (tangentAngle1 dx dy r R),
           dy + r * Real.sin (tangentAngle1 dx dy r R)) ∧
      (calculateTangentLines dx dy r R).line2
        = (R * Real.cos (tangentAngle2 dx dy r R),
           R * Real.sin (tangentAngle2 dx dy r R),
           dx + r * Real.cos (tangentAngle2 dx dy r R),
           dy + r * Real.sin (tangentAngle2 dx dy r R)) ∧
      Real.sqrt ((R * Real.cos (tangentAngle1 dx dy r R)) ^ 2 +
          (R * Real.sin (tangentAngle1 dx dy r R)) ^ 2) = R ∧
      Real.sqrt ((R * Real.cos (tangentAngle2 dx dy r R)) ^ 2 +
          (R * Real.sin (tangentAngle2 dx dy r R)) ^ 2) = R) := by
  constructor
  · intro hle
    unfold calculateTangentLines
    rw [if_pos hle]
  · intro hgt
    have hdist : ∀ θ : ℝ,
        Real.sqrt ((R * Real.cos θ) ^ 2 + (R * Real.sin θ) ^ 2) = R := by
      intro θ
      have h1 : (R * Real.cos θ) ^ 2 + (R * Real.sin θ) ^ 2 = R ^ 2 := by
        have := Real.cos_sq_add_sin_sq θ
        nlinarith [this]
      rw [h1]
      exact Real.sqrt_sq hR.le
    have ha1 : atan2 dy dx + Real.pi / 2
          - Real.arcsin ((R - r) / Real.sqrt (dx * dx + dy * dy))
        = tangentAngle1 dx dy r R := by
      unfold tangentAngle1
      ring
    have ha2 : atan2 dy dx - Real.pi / 2
          + Real.arcsin ((R - r) / Real.sqrt (dx * dx + dy * dy))
        = tangentAngle2 dx dy r R := by
      unfold tangentAngle2
      ring
    have hcalc : calculateTangentLines dx dy r R
        = { line1 := (R * Real.cos (tangentAngle1 dx dy r R),
                      R * Real.sin (tangentAngle1 dx dy r R),
                      dx + r * Real.cos (tangentAngle1 dx dy r R),
                      dy + r * Real.sin (tangentAngle1 dx dy r R)),
            line2 := (R * Real.cos (tangentAngle2 dx dy r R),
                      R * Real.sin (tangentAngle2 dx dy r R),
                      dx + r * Real.cos (tangentAngle2 dx dy r R),
                      dy + r * Real.sin (tangentAngle2 dx dy r R)) } := by
      unfold calculateTangentLines
      rw [if_neg (not_le.mpr hgt)]
      dsimp only
      rw [ha1, ha2]
    rw [hcalc]
    exact ⟨rfl, rfl, hdist _, hdist _⟩

/-- Witness for C4 at the spec's scenario input (source center-relative
(100, 0), r = 20, R = 40): the solver takes the tangent branch and both
target-circle endpoints lie at distance exactly 40 from the origin. -/
theorem c4_tangent_solver_witness :
    (calculateTangentLines 100 0 20 40).line1
      = (40 * Real.cos (tangentAngle1 100 0 20 40),
         40 * Real.sin (tangentAngle1 100 0 20 40),
         100 + 20 * Real.cos (tangentAngle1 100 0 20 40),
         0 + 20 * Real.sin (tangentAngle1 100 0 20 40)) ∧
    Real.sqrt ((40 * Real.cos (tangentAngle1 100 0 20 40)) ^ 2 +
        (40 * Real.sin (tangentAngle1 100 0 20 40)) ^ 2) = 40 ∧
    Real.sqrt ((40 * Real.cos (tangentAngle2 100 0 20 40)) ^ 2 +
        (40 * Real.sin (tangentAngle2 100 0 20 40)) ^ 2) = 40 := by
  have hs : Real.sqrt ((100 : ℝ) * 100 + 0 * 0) = 100 := by
    rw [show (100 : ℝ) * 100 + 0 * 0 = 100 ^ 2 by ring]
    exact Real.sqrt_sq (by norm_num)
  have hgt : |(40 : ℝ) - 20| + 1 < Real.sqrt ((100 : ℝ) * 100 + 0 * 0) := by
    rw [hs]
    norm_num
  have h := (c4_tangent_solver 100 0 20 40 (by norm_num) (by norm_num)).2 hgt
  exact ⟨h.1, h.2.2.1, h.2.2.2⟩

/-- A rectangular RGBA pixel buffer (`ImageData`): dimensions plus the
byte at channel `c` of pixel `(x, y)` (the flat
`data[(y * width + x) * 4 + c]` layout is modelled as a coordinate
function).  Channel 3 is alpha. -/
structure ImgBuf where
  width : ℕ
  height : ℕ
  data : ℕ → ℕ → Fin 4 → ℕ

/-- Color channel `c` of a buffer as an exact rational-valued function. -/
def chan (buf : ImgBuf) (c : Fin 3) : ℕ → ℕ → ℚ :=
  fun x y => (buf.data x y c.castSucc : ℚ)

/-- The summed-area table of `applyKuwaharaFilter`: `sat f i j` is the
entry at row `i`, column `j` of the `(height+1)×(width+1)` table, built
by the source's recurrence
`sat[y+1][x+1] = f(x,y) + sat[y][x+1] + sat[y+1][x] − sat[y][x]`
with zero first row and column. -/
def sat (f : ℕ → ℕ → ℚ) : ℕ → ℕ → ℚ
  | 0, _ => 0
  | _ + 1, 0 => 0
  | y + 1, x + 1 => f x y + sat f y (x + 1) + sat f (y + 1) x - sat f y x
termination_by i j => (i, j)

/-- `getSum` from `applyKuwaharaFilter`: the rectangle sum over
`[x1, x2] × [y1, y2]` from four table corners, `D − B − C + A`. -/
def getSum (satf : ℕ → ℕ → ℚ) (x1 y1 x2 y2 : ℕ) : ℚ :=
  satf (y2 + 1) (x2 + 1) - satf y1 (x2 + 1) - satf (y2 + 1) x1 + satf y1 x1

/-- The direct double sum over the pixel window `[x1, x2] × [y1, y2]`,
the naive reference the spec describes. -/
def windowSum (f : ℕ → ℕ → ℚ) (x1 y1 x2 y2 : ℕ) : ℚ :=
  ∑ y ∈ Finset.Ico y1 (y2 + 1), ∑ x ∈ Finset.Ico x1 (x2 + 1), f x y

lemma sat_eq_sum (f : ℕ → ℕ → ℚ) :
    ∀ i j, sat f i j = ∑ y ∈ Finset.range i, ∑ x ∈ Finset.range j, f x y := by
  intro i
  induction i with
  | zero => intro j; simp [sat]
  | succ i ih =>
      intro j
      induction j with
      | zero => simp [sat]
      | succ j ihj =>
          rw [sat, ih (j + 1), ihj, ih j]
          simp only [Finset.sum_range_succ]
          ring

lemma getSum_eq (f : ℕ → ℕ → ℚ) (x1 y1 x2 y2 : ℕ)
    (hx : x1 ≤ x2 + 1) (hy : y1 ≤ y2 + 1) :
    getSum (sat f) x1 y1 x2 y2 = windowSum f x1 y1 x2 y2 := by
  have inner : ∀ y, ∑ x ∈ Finset.Ico x1 (x2 + 1), f x y
      = ∑ x ∈ Finset.range (x2 + 1), f x y - ∑ x ∈ Finset.range x1, f x y :=
    fun y => Finset.sum_Ico_eq_sub _ hx
  unfold getSum windowSum
  rw [Finset.sum_Ico_eq_sub _ hy]
  simp only [inner, Finset.sum_sub_distrib]
  rw [sat_eq_sum, sat_eq_sum, sat_eq_sum, sat_eq_sum]
  ring

/-- The four bounds-clipped quadrant windows of pixel `(x, y)` at
radius `r`, in the source's order up-left, up-right, down-left,
down-right, as `(x1, y1, x2, y2)`.  Truncated `ℕ` subtraction is the
source's `Math.max(0, ·)` clip; the upper clip is `Math.min(width−1, ·)`. -/
def quadBounds (W H r x y : ℕ) : Fin 4 → ℕ × ℕ × ℕ × ℕ
  | 0 => (x - r, y - r, min (W - 1) x, min (H - 1) y)
  | 1 => (x, y - r, min (W - 1) (x + r), min (H - 1) y)
  | 2 => (x - r, y, min (W - 1) x, min (H - 1) (y + r))
  | 3 => (x, y, min (W - 1) (x + r), min (H - 1) (y + r))

/-- The pixel count `(x2 − x1 + 1) * (y2 − y1 + 1)` of a clipped
quadrant window, as a rational. -/
def quadCountQ (x1 y1 x2 y2 : ℕ) : ℚ :=
  (((x2 - x1 + 1) * (y2 - y1 + 1) : ℕ) : ℚ)

/-- Channel mean over a window as the summed-area-table implementation
computes it: `getSum / count`. -/
def satMean (f : ℕ → ℕ → ℚ) (x1 y1 x2 y2 : ℕ) : ℚ :=
  getSum (sat f) x1 y1 x2 y2 / quadCountQ x1 y1 x2 y2

/-- Channel variance as the summed-area-table implementation computes
it: `sumOfSquares / count − mean · mean`. -/
def satVar (f : ℕ → ℕ → ℚ) (x1 y1 x2 y2 : ℕ) : ℚ :=
  getSum (sat (fun a b => f a b * f a b)) x1 y1 x2 y2 / quadCountQ x1 y1 x2 y2
    - satMean f x1 y1 x2 y2 * satMean f x1 y1 x2 y2

/-- Channel mean of the naive reference: direct window sum over count. -/
def refMean (f : ℕ → ℕ → ℚ) (x1 y1 x2 y2 : ℕ) : ℚ :=
  windowSum f x1 y1 x2 y2 / quadCountQ x1 y1 x2 y2

/-- Channel variance of the naive reference: the mean squared deviation
from the window mean. -/
def refVar (f : ℕ → ℕ → ℚ) (x1 y1 x2 y2 : ℕ) : ℚ :=
  windowSum (fun a b => (f a b - refMean f x1 y1 x2 y2) ^ 2) x1 y1 x2 y2
    / quadCountQ x1 y1 x2 y2

/-- One quadrant's `(summed variance, mean R, mean G, mean B)` as
`applyKuwaharaFilter` computes it with the summed-area tables; `none`
models the `continue` for an empty clipped window or a zero count. -/
def quadStats (buf : ImgBuf) (r x y : ℕ) (i : Fin 4) : Option (ℚ × ℚ × ℚ × ℚ) :=
  let b := quadBounds buf.width buf.height r x y i
  if b.2.2.1 < b.1 ∨ b.2.2.2 < b.2.1 then none
  else if quadCountQ b.1 b.2.1 b.2.2.1 b.2.2.2 = 0 then none
  else
    some (satVar (chan buf 0) b.1 b.2.1 b.2.2.1 b.2.2.2
            + satVar (chan buf 1) b.1 b.2.1 b.2.2.1 b.2.2.2
            + satVar (chan buf 2) b.1 b.2.1 b.2.2.1 b.2.2.2,
          satMean (chan buf 0) b.1 b.2.1 b.2.2.1 b.2.2.2,
          satMean (chan buf 1) b.1 b.2.1 b.2.2.1 b.2.2.2,
          satMean (chan buf 2) b.1 b.2.1 b.2.2.1 b.2.2.2)

/-- One quadrant's statistics per the spec's naive reference: direct
window sums, variance as mean squared deviation, same clipping and
skip condition. -/
def quadStatsRef (buf : ImgBuf) (r x y : ℕ) (i : Fin 4) : Option (ℚ × ℚ × ℚ × ℚ) :=
  let b := quadBounds buf.width buf.height r x y i
  if b.2.2.1 < b.1 ∨ b.2.2.2 < b.2.1 then none
  else if quadCountQ b.1 b.2.1 b.2.2.1 b.2.2.2 = 0 then none
  else
    some (refVar (chan buf 0) b.1 b.2.1 b.2.2.1 b.2.2.2
            + refVar (chan buf 1) b.1 b.2.1 b.2.2.1 b.2.2.2
            + refVar (chan buf 2) b.1 b.2.1 b.2.2.1 b.2.2.2,
          refMean (chan buf 0) b.1 b.2.1 b.2.2.1 b.2.2.2,
          refMean (chan buf 1) b.1 b.2.1 b.2.2.1 b.2.2.2,
          refMean (chan buf 2) b.1 b.2.1 b.2.2.1 b.2.2.2)

/-- The quadrant-selection loop: fold the quadrants in order, keeping
the means of the strictly smallest summed variance seen so far.
`none` as the accumulated minimum models the initial `Infinity`;
skipped quadrants leave the accumulator unchanged. -/
def selectLoop (acc : Option ℚ × (ℚ × ℚ × ℚ)) :
    List (Option (ℚ × ℚ × ℚ × ℚ)) → Option ℚ × (ℚ × ℚ × ℚ)
  | [] => acc
  | none :: rest => selectLoop acc rest
  | some (v, mr, mg, mb) :: rest =>
      match acc.1 with
      | none => selectLoop (some v, (mr, mg, mb)) rest
      | some m =>
          if v < m then selectLoop (some v, (mr, mg, mb)) rest
          else selectLoop acc rest

/-- Storing into a `Uint8ClampedArray`: clamp into `[0, 255]`, round to
the nearest integer, ties to even (the ECMAScript `ToUint8Clamp`). -/
def roundClampByte (q : ℚ) : ℕ :=
  if q ≤ 0 then 0
  else if 255 ≤ q then 255
  else
    (if q - ⌊q⌋ < 1 / 2 then ⌊q⌋
     else if 1 / 2 < q - ⌊q⌋ then ⌊q⌋ + 1
     else if ⌊q⌋ % 2 = 0 then ⌊q⌋ else ⌊q⌋ + 1).toNat

/-- `applyKuwaharaFilter` from `RenderAnnotation.tsx`: effective radius
`max 2 ⌊radius⌋`, per-pixel selection of the bounds-clipped quadrant
window with the lowest summed-channel variance via summed-area tables,
output channels the chosen window's means (stored as clamped bytes),
alpha copied through. -/
def applyKuwaharaFilter (buf : ImgBuf) (radius : ℕ) : ℕ → ℕ → Fin 4 → ℕ :=
  fun x y c =>
    let r := max 2 radius
    let res := selectLoop (none, (0, 0, 0))
      [quadStats buf r x y 0, quadStats buf r x y 1,
       quadStats buf r x y 2, quadStats buf r x y 3]
    if c = (3 : Fin 4) then buf.data x y 3
    else if c = (0 : Fin 4) then roundClampByte res.2.1
    else if c = (1 : Fin 4) then roundClampByte res.2.2.1
    else roundClampByte res.2.2.2

/-- The naive reference filter per the spec's words: identical
selection and output, with each quadrant's mean and variance computed
by direct summation over the clipped window. -/
def kuwaharaRef (buf : ImgBuf) (radius : ℕ) : ℕ → ℕ → Fin 4 → ℕ :=
  fun x y c =>
    let r := max 2 radius
    let res := selectLoop (none, (0, 0, 0))
      [quadStatsRef buf r x y 0, quadStatsRef buf r x y 1,
       quadStatsRef buf r x y 2, quadStatsRef buf r x y 3]
    if c = (3 : Fin 4) then buf.data x y 3
    else if c = (0 : Fin 4) then roundClampByte res.2.1
    else if c = (1 : Fin 4) then roundClampByte res.2.2.1
    else roundClampByte res.2.2.2

lemma quadCountQ_ne_zero (x1 y1 x2 y2 : ℕ) : quadCountQ x1 y1 x2 y2 ≠ 0 := by
  unfold quadCountQ
  rw [Nat.cast_ne_zero]
  exact Nat.mul_ne_zero (Nat.succ_ne_zero _) (Nat.succ_ne_zero _)

lemma satMean_eq_refMean (f : ℕ → ℕ → ℚ) (x1 y1 x2 y2 : ℕ)
    (hx : x1 ≤ x2) (hy : y1 ≤ y2) :
    satMean f x1 y1 x2 y2 = refMean f x1 y1 x2 y2 := by
  unfold satMean refMean
  rw [getSum_eq _ _ _ _ _ (by omega) (by omega)]

lemma windowSum_sq_expand (f : ℕ → ℕ → ℚ) (m : ℚ) (x1 y1 x2 y2 : ℕ)
    (hx : x1 ≤ x2) (hy : y1 ≤ y2) :
    windowSum (fun a b => (f a b - m) ^ 2) x1 y1 x2 y2
      = windowSum (fun a b => f a b * f a b) x1 y1 x2 y2
          - 2 * m * windowSum f x1 y1 x2 y2
          + m ^ 2 * quadCountQ x1 y1 x2 y2 := by
  unfold windowSum quadCountQ
  have h1 : ∀ a b : ℕ, (f a b - m) ^ 2 = f a b * f a b - 2 * m * f a b + m ^ 2 := by
    intro a b; ring
  simp_rw [h1]
  simp only [Finset.sum_add_distrib, Finset.sum_sub_distrib, ← Finset.mul_sum,
    Finset.sum_const, nsmul_eq_mul, Nat.card_Ico]
  rw [show x2 + 1 - x1 = x2 - x1 + 1 from by omega,
      show y2 + 1 - y1 = y2 - y1 + 1 from by omega]
  push_cast
  ring

lemma satVar_eq_refVar (f : ℕ → ℕ → ℚ) (x1 y1 x2 y2 : ℕ)
    (hx : x1 ≤ x2) (hy : y1 ≤ y2) :
    satVar f x1 y1 x2 y2 = refVar f x1 y1 x2 y2 := by
  have hc := quadCountQ_ne_zero x1 y1 x2 y2
  unfold satVar refVar satMean refMean
  rw [getSum_eq _ _ _ _ _ (by omega) (by omega),
      getSum_eq _ _ _ _ _ (by omega) (by omega),
      windowSum_sq_expand f _ x1 y1 x2 y2 hx hy]
  field_simp
  ring

lemma quadStats_eq_ref (buf : ImgBuf) (r x y : ℕ) (i : Fin 4) :
    quadStats buf r x y i = quadStatsRef buf r x y i := by
  unfold quadStats quadStatsRef
  dsimp only
  set b := quadBounds buf.width buf.height r x y i with hb
  by_cases hs : b.2.2.1 < b.1 ∨ b.2.2.2 < b.2.1
  · simp only [if_pos hs]
  · push_neg at hs
    have hns : ¬ (b.2.2.1 < b.1 ∨ b.2.2.2 < b.2.1) := by
      push_neg
      exact hs
    simp only [if_neg hns, if_neg (quadCountQ_ne_zero b.1 b.2.1 b.2.2.1 b.2.2.2)]
    rw [satMean_eq_refMean _ _ _ _ _ hs.1 hs.2, satMean_eq_refMean _ _ _ _ _ hs.1 hs.2,
        satMean_eq_refMean _ _ _ _ _ hs.1 hs.2,
        satVar_eq_refVar _ _ _ _ _ hs.1 hs.2, satVar_eq_refVar _ _ _ _ _ hs.1 hs.2,
        satVar_eq_refVar _ _ _ _ _ hs.1 hs.2]

lemma windowSum_const (q : ℚ) (x1 y1 x2 y2 : ℕ) (hx : x1 ≤ x2) (hy : y1 ≤ y2) :
    windowSum (fun _ _ => q) x1 y1 x2 y2 = quadCountQ x1 y1 x2 y2 * q := by
  unfold windowSum quadCountQ
  simp only [Finset.sum_const, nsmul_eq_mul, Nat.card_Ico]
  rw [show x2 + 1 - x1 = x2 - x1 + 1 from by omega,
      show y2 + 1 - y1 = y2 - y1 + 1 from by omega]
  push_cast
  ring

lemma refMean_const (q : ℚ) (x1 y1 x2 y2 : ℕ) (hx : x1 ≤ x2) (hy : y1 ≤ y2) :
    refMean (fun _ _ => q) x1 y1 x2 y2 = q := by
  unfold refMean
  rw [windowSum_const q x1 y1 x2 y2 hx hy, mul_comm, mul_div_assoc,
      div_self (quadCountQ_ne_zero x1 y1 x2 y2), mul_one]

lemma refVar_const (q : ℚ) (x1 y1 x2 y2 : ℕ) (hx : x1 ≤ x2) (hy : y1 ≤ y2) :
    refVar (fun _ _ => q) x1 y1 x2 y2 = 0 := by
  unfold refVar
  rw [refMean_const q x1 y1 x2 y2 hx hy]
  simp [windowSum]

lemma quadBounds_valid (W H r x y : ℕ) (hx : x < W) (hy : y < H) (i : Fin 4) :
    (quadBounds W H r x y i).1 ≤ (quadBounds W H r x y i).2.2.1 ∧
    (quadBounds W H r x y i).2.1 ≤ (quadBounds W H r x y i).2.2.2 := by
  fin_cases i <;> refine ⟨?_, ?_⟩ <;> simp only [quadBounds] <;> omega

lemma quadStatsRef_uniform (W H r x y : ℕ) (v : Fin 4 → ℕ)
    (hx : x < W) (hy : y < H) (i : Fin 4) :
    quadStatsRef ⟨W, H, fun _ _ c => v c⟩ r x y i
      = some (0, ((v (Fin.castSucc 0) : ℕ) : ℚ), ((v (Fin.castSucc 1) : ℕ) : ℚ),
          ((v (Fin.castSucc 2) : ℕ) : ℚ)) := by
  obtain ⟨h1, h2⟩ := quadBounds_valid W H r x y hx hy i
  unfold quadStatsRef
  dsimp only
  rw [if_neg (by omega), if_neg (quadCountQ_ne_zero _ _ _ _)]
  have hchan : ∀ c : Fin 3, chan ⟨W, H, fun _ _ c => v c⟩ c
      = fun _ _ => ((v c.castSucc : ℕ) : ℚ) := fun c => rfl
  rw [hchan 0, hchan 1, hchan 2]
  rw [refVar_const _ _ _ _ _ h1 h2, refVar_const _ _ _ _ _ h1 h2,
      refVar_const _ _ _ _ _ h1 h2,
      refMean_const _ _ _ _ _ h1 h2, refMean_const _ _ _ _ _ h1 h2,
      refMean_const _ _ _ _ _ h1 h2]
  have h000 : (0 : ℚ) + 0 + 0 = 0 := by norm_num
  rw [h000]

lemma selectLoop_uniform (m1 m2 m3 : ℚ) :
    selectLoop (none, (0, 0, 0))
      [some (0, m1, m2, m3), some (0, m1, m2, m3),
       some (0, m1, m2, m3), some (0, m1, m2, m3)]
      = (some 0, (m1, m2, m3)) := by
  simp [selectLoop]

lemma roundClampByte_natCast (n : ℕ) (h : n ≤ 255) : roundClampByte (n : ℚ) = n := by
  unfold roundClampByte
  by_cases h0 : (n : ℚ) ≤ 0
  · have hn0 : n = 0 := by exact_mod_cast le_antisymm h0 (by positivity)
    rw [if_pos h0, hn0]
  · rw [if_neg h0]
    by_cases h255 : (255 : ℚ) ≤ (n : ℚ)
    · have h255n : (255 : ℕ) ≤ n := by exact_mod_cast h255
      rw [if_pos h255, le_antisymm h h255n]
    · rw [if_neg h255, Int.floor_natCast]
      norm_num

lemma kuwahara_agrees (buf : ImgBuf) (radius x y : ℕ) (c : Fin 4) :
    applyKuwaharaFilter buf radius x y c = kuwaharaRef buf radius x y c := by
  unfold applyKuwaharaFilter kuwaharaRef
  dsimp only
  rw [quadStats_eq_ref, quadStats_eq_ref, quadStats_eq_ref, quadStats_eq_ref]

lemma kuwahara_uniform (W H radius : ℕ) (v : Fin 4 → ℕ) (hv : ∀ ch, v ch ≤ 255)
    (x y : ℕ) (hx : x < W) (hy : y < H) (c : Fin 4) :
    applyKuwaharaFilter ⟨W, H, fun _ _ ch => v ch⟩ radius x y c = v c := by
  rw [kuwahara_agrees]
  unfold kuwaharaRef
  dsimp only
  rw [quadStatsRef_uniform _ _ _ _ _ v hx hy, quadStatsRef_uniform _ _ _ _ _ v hx hy,
      quadStatsRef_uniform _ _ _ _ _ v hx hy, quadStatsRef_uniform _ _ _ _ _ v hx hy,
      selectLoop_uniform]
  fin_cases c
  · rw [if_neg (by decide), if_pos (by decide)]
    exact roundClampByte_natCast _ (hv _)
  · rw [if_neg (by decide), if_neg (by decide), if_pos (by decide)]
    exact roundClampByte_natCast _ (hv _)
  · rw [if_neg (by decide), if_neg (by decide), if_neg (by decide)]
    exact roundClampByte_natCast _ (hv _)
  · rw [if_pos (by decide)]
    rfl

/-- **C3.** Mosaic (Kuwahara) filter correctness: the summed-area-table
implementation agrees with the naive reference definition at every
pixel (each output pixel is the per-channel mean of the clipped
quadrant window with the lowest summed-channel variance, computed by
direct summation), and on a uniform-color buffer the filter returns the
buffer unchanged. -/
theorem c3_kuwahara_filter :
    (∀ (buf : ImgBuf) (radius x y : ℕ) (c : Fin 4),
        applyKuwaharaFilter buf radius x y c = kuwaharaRef buf radius x y c) ∧
    (∀ (W H radius : ℕ) (v : Fin 4 → ℕ), (∀ ch, v ch ≤ 255) →
        ∀ x y, x < W → y < H → ∀ c,
          applyKuwaharaFilter ⟨W, H, fun _ _ ch => v ch⟩ radius x y c = v c) :=
  ⟨kuwahara_agrees,
   fun W H radius v hv x y hx hy c => kuwahara_uniform W H radius v hv x y hx hy c⟩

/-- Witness for C3 at the spec's scenario: a uniform 40×40 buffer of
byte value 100 with radius 10 is returned unchanged (sampled at two
pixels and channels, including an edge pixel). -/
theorem c3_kuwahara_filter_witness :
    applyKuwaharaFilter ⟨40, 40, fun _ _ _ => 100⟩ 10 7 13 0 = 100 ∧
    applyKuwaharaFilter ⟨40, 40, fun _ _ _ => 100⟩ 10 0 39 2 = 100 :=
  ⟨c3_kuwahara_filter.2 40 40 10 (fun _ => 100) (fun _ => by norm_num)
      7 13 (by norm_num) (by norm_num) 0,
   c3_kuwahara_filter.2 40 40 10 (fun _ => 100) (fun _ => by norm_num)
      0 39 (by norm_num) (by norm_num) 2⟩

end MarkPix
